import Mathlib

set_option maxHeartbeats 1000000

/-!
Shallow embedding of the neonlabs EVM runtime layer.

The runtime loop (`Runtime::step` / `Runtime::run` from `runtime/src/lib.rs`)
and the system-opcode dispatch layer (`runtime/src/eval/system.rs`) are
translated directly from the Rust source.  The lower machine layer
(`Machine`, `Stack`, `Memory` of the `evm_core` crate) and the small eval
macros are not part of the given sources, so they are modelled from the
specification (sections 3, 4.3, 5 and 7); every such definition carries a
doc comment saying so.

Machine integers are modelled as `Nat`: a 256-bit stack word is a `Nat`
(values produced by the code stay below `2 ^ 256`), an `H160` address is the
low 20 bytes of a word (`% 2 ^ 160`), and the 64-bit `usize` / `u64` bounds
are explicit comparisons with `2 ^ 64 - 1`.
-/

/-- Maximum value of a 64-bit machine word, `u64::MAX`. -/
def u64Max : Nat := 2 ^ 64 - 1

/-- Maximum value of `usize` on the 64-bit target, `usize::max_value()`. -/
def usizeMax : Nat := 2 ^ 64 - 1

/-- Low 20 bytes of an `H256` word: the `H160` obtained by `H256::into()`. -/
def toH160 (v : Nat) : Nat := v % 2 ^ 160

/-- Checked 64-bit addition, `usize::checked_add`: `none` on overflow. -/
def checkedAdd (a b : Nat) : Option Nat :=
  if a + b > usizeMax then none else some (a + b)

/-- Pad a byte list with zeroes on the right up to length `n` (no-op if already longer). -/
def padTo (l : List Nat) (n : Nat) : List Nat :=
  l ++ List.replicate (n - l.length) 0

/-- Read `len` bytes of `data` starting at `off`, filling reads past the end with zero. -/
def sliceZero (data : List Nat) (off len : Nat) : List Nat :=
  padTo ((data.drop off).take len) len

/-- Overwrite `bytes` with `src` starting at position `off`, zero-extending
`bytes` first if it is shorter than `off`. -/
def listWrite (bytes : List Nat) (off : Nat) (src : List Nat) : List Nat :=
  (padTo bytes off).take off ++ src ++ bytes.drop (off + src.length)

/-- Succeeding exit reasons (`ExitSucceed`). -/
inductive ExitSucceed where
  | Stopped
  | Returned
  | Suicided
  deriving DecidableEq, Repr

/-- Reverting exit reason (`ExitRevert`). -/
inductive ExitRevert where
  | Reverted
  deriving DecidableEq, Repr

/-- Non-fatal error exit reasons (`ExitError`), the kinds named by the spec:
stack underflow/overflow, invalid jump, invalid range (memory-limit or bounds
overflow), out-of-offset, out-of-gas, call-depth, static-mode violation,
invalid or designated-invalid opcode, insufficient funds. -/
inductive ExitError where
  | StackUnderflow
  | StackOverflow
  | InvalidJump
  | InvalidRange
  | OutOfOffset
  | OutOfGas
  | OutOfFund
  | CallTooDeep
  | StaticModeViolation
  | InvalidCode
  | DesignatedInvalid
  deriving DecidableEq, Repr

/-- Fatal exit reasons (`ExitFatal`). -/
inductive ExitFatal where
  | NotSupported
  | UnhandledInterrupt
  | CallErrorAsFatal (e : ExitError)
  deriving DecidableEq, Repr

/-- Terminal disposition of a frame (`ExitReason`). -/
inductive ExitReason where
  | Succeed (s : ExitSucceed)
  | Revert (r : ExitRevert)
  | Error (e : ExitError)
  | Fatal (f : ExitFatal)
  | StepLimitReached
  deriving DecidableEq, Repr

/-- Decidable equality for `Except`, used to evaluate witnesses by `decide`. -/
instance {e a : Type} [DecidableEq e] [DecidableEq a] : DecidableEq (Except e a) := fun x y =>
  match x, y with
  | .ok u, .ok v =>
    if h : u = v then .isTrue (by rw [h]) else .isFalse (fun c => h (Except.ok.inj c))
  | .ok _, .error _ => .isFalse (fun c => Except.noConfusion c)
  | .error _, .ok _ => .isFalse (fun c => Except.noConfusion c)
  | .error u, .error v =>
    if h : u = v then .isTrue (by rw [h]) else .isFalse (fun c => h (Except.error.inj c))

/-- Capture of a nested-execution outcome (`Capture<E, T>`): either a final
exit value or a trap the outer driver must handle. -/
inductive Capture (E T : Type) where
  | Exit (e : E)
  | Trap (t : T)
  deriving DecidableEq, Repr

/-- Create scheme (`CreateScheme`, `runtime/src/context.rs`). -/
inductive CreateScheme where
  | Legacy (caller : Nat)
  | Create2 (caller : Nat) (code_hash : Nat) (salt : Nat)
  | Fixed (addr : Nat)
  deriving DecidableEq, Repr

/-- Call scheme (`CallScheme`, `runtime/src/context.rs`). -/
inductive CallScheme where
  | Call
  | CallCode
  | DelegateCall
  | StaticCall
  deriving DecidableEq, Repr

/-- Per-frame identity (`Context`, `runtime/src/context.rs`). -/
structure Context where
  address : Nat
  caller : Nat
  apparent_value : Nat
  deriving DecidableEq, Repr

/-- Value movement accompanying a call (`Transfer`). -/
structure Transfer where
  source : Nat
  target : Nat
  value : Nat
  deriving DecidableEq, Repr

/-- Modelled from the spec: the 1024-slot word stack of the lower machine
(`evm_core::Stack` is not under `src/`).  The top of the stack is the head of
`data`; `limit` is the configured `stack_limit`. -/
structure Stack where
  data : List Nat
  limit : Nat
  deriving DecidableEq, Repr

/-- Modelled from the spec: popping an empty stack is a `StackUnderflow`
error and leaves the stack unchanged. -/
def Stack.pop (s : Stack) : Except ExitError (Nat × Stack) :=
  match s.data with
  | [] => .error .StackUnderflow
  | v :: rest => .ok (v, { s with data := rest })

/-- Modelled from the spec: pushing onto a full stack (`|stack| = limit`) is a
`StackOverflow` error and leaves the stack unchanged. -/
def Stack.push (s : Stack) (v : Nat) : Except ExitError Stack :=
  if s.data.length + 1 > s.limit then .error .StackOverflow
  else .ok { s with data := v :: s.data }

/-- Modelled from the spec: the byte-addressable expandable memory of the
lower machine (`evm_core::Memory` is not under `src/`), bounded by the
configured `memory_limit`. -/
structure Memory where
  bytes : List Nat
  limit : Nat
  deriving DecidableEq, Repr

/-- Modelled from the spec: grow memory so that its size is at least `end_`;
exceeding `memory_limit` is a non-fatal `ExitError`. -/
def Memory.resize_end (m : Memory) (end_ : Nat) : Except ExitError Memory :=
  if end_ > m.limit then .error .InvalidRange
  else .ok { m with bytes := padTo m.bytes end_ }

/-- Modelled from the spec: resize memory to cover `[offset, offset + len)`;
a zero-length resize is a no-op. -/
def Memory.resize_offset (m : Memory) (offset len : Nat) : Except ExitError Memory :=
  if len = 0 then .ok m
  else m.resize_end (offset + len)

/-- Modelled from the spec: read `len` bytes at `offset`; reads past the
current size yield zero. -/
def Memory.get (m : Memory) (offset len : Nat) : List Nat :=
  sliceZero m.bytes offset len

/-- Modelled from the spec: copy `len` bytes of `data` starting at
`data_offset` into memory at `memory_offset`, zero-filling reads past the end
of `data`; writing past `memory_limit` is a fatal failure. -/
def Memory.copy_large (m : Memory) (memory_offset data_offset len : Nat)
    (data : List Nat) : Except ExitFatal Memory :=
  if len = 0 then .ok m
  else if memory_offset + len > m.limit then .error .NotSupported
  else .ok { m with bytes := listWrite m.bytes memory_offset (sliceZero data data_offset len) }

/-- Modelled from the spec: the lower arithmetic machine (`evm_core::Machine`
is not under `src/`): code, jump-valid bitmap, call data, program counter
(`position`, which becomes the exit reason on termination), stack and memory. -/
structure Machine where
  code : List Nat
  valids : List Nat
  data : List Nat
  position : Except ExitReason Nat
  stack : Stack
  memory : Memory
  deriving DecidableEq, Repr

/-- Modelled from the spec: `Machine::new` starts at position 0 with an empty
stack and memory under the configured limits. -/
def Machine.new (code valids data : List Nat) (stack_limit memory_limit : Nat) : Machine :=
  { code := code, valids := valids, data := data, position := .ok 0,
    stack := { data := [], limit := stack_limit },
    memory := { bytes := [], limit := memory_limit } }

/-- Modelled from the spec: `Machine::inspect` returns the next opcode and
the stack, or `none` when the machine has exited or ran past its code. -/
def Machine.inspect (m : Machine) : Option (Nat × List Nat) :=
  match m.position with
  | .error _ => none
  | .ok p =>
    match m.code.get? p with
    | none => none
    | some op => some (op, m.stack.data)

/-- Modelled from the spec: `Machine::exit` records a terminal exit reason in
the position. -/
def Machine.exit (m : Machine) (reason : ExitReason) : Machine :=
  { m with position := .error reason }

/-- Opcode `0x00`, `STOP`. -/
def opStop : Nat := 0x00

/-- Opcode `0x5b`, `JUMPDEST`, used here as the representative pure opcode. -/
def opJumpdest : Nat := 0x5b

/-- Modelled from the spec (§9, trap-opcode enum): the closed set of opcodes
the lower machine yields as traps to the runtime's dispatch layer, restricted
to the system opcodes embedded in this development. -/
def isTrapOpcode (op : Nat) : Bool :=
  op = 0x3d || op = 0x3e || op = 0xf0 || op = 0xf1 || op = 0xf2 || op = 0xf4 ||
  op = 0xf5 || op = 0xfa

/-- Modelled from the spec: one step of the lower machine.  A machine that
already exited re-reports its exit; running past the code or `STOP` exits
`Succeed(Stopped)`; a pure opcode advances the position; a trap opcode
advances the position and surfaces `Capture::Trap(opcode)`; anything else
exits with the invalid-opcode error. -/
def Machine.step (m : Machine) : Machine × Except (Capture ExitReason Nat) Unit :=
  match m.position with
  | .error e => (m, .error (.Exit e))
  | .ok p =>
    match m.code.get? p with
    | none =>
      (m.exit (.Succeed .Stopped), .error (.Exit (.Succeed .Stopped)))
    | some op =>
      if op = opStop then
        (m.exit (.Succeed .Stopped), .error (.Exit (.Succeed .Stopped)))
      else if op = opJumpdest then
        ({ m with position := .ok (p + 1) }, .ok ())
      else if isTrapOpcode op then
        ({ m with position := .ok (p + 1) }, .error (.Trap op))
      else
        (m.exit (.Error .InvalidCode), .error (.Exit (.Error .InvalidCode)))

/-- Modelled from the spec (§4.3): `Machine::run(max_steps, pre_validate)`
iterates up to `max_steps` steps in a tight loop, running `pre_validate` on
the next opcode before each step (a validation failure terminates the machine
with that error), and surfaces `StepLimitReached` when the budget is
exhausted.  Returns the machine, the number of steps executed and the final
capture. -/
def Machine.run (m : Machine) (budget : Nat)
    (pre : Nat → List Nat → Except ExitError Unit) :
    Machine × Nat × Capture ExitReason Nat :=
  match budget with
  | 0 => (m, 0, .Exit .StepLimitReached)
  | b + 1 =>
    let check : Except ExitError Unit :=
      match m.inspect with
      | some (op, stk) => pre op stk
      | none => .ok ()
    match check with
    | .error e => (m.exit (.Error e), 0, .Exit (.Error e))
    | .ok _ =>
      let (m', r) := m.step
      match r with
      | .ok _ =>
        let (m'', n, cap) := m'.run b pre
        (m'', n + 1, cap)
      | .error cap => (m', 0, cap)

/-- Runtime frame state (`Runtime`, `runtime/src/lib.rs`): the lower machine,
the status, the return-data buffer and the immutable context. -/
structure Runtime where
  machine : Machine
  status : Except ExitReason Unit
  return_data_buffer : List Nat
  context : Context
  deriving DecidableEq, Repr

/-- Replace the runtime's stack (the shape of every `stack_mut()` update). -/
def Runtime.withStack (rt : Runtime) (s : Stack) : Runtime :=
  { rt with machine := { rt.machine with stack := s } }

/-- Replace the runtime's memory (the shape of every `memory_mut()` update). -/
def Runtime.withMemory (rt : Runtime) (m : Memory) : Runtime :=
  { rt with machine := { rt.machine with memory := m } }

/-- Replace the runtime's return-data buffer. -/
def Runtime.withBuffer (rt : Runtime) (b : List Nat) : Runtime :=
  { rt with return_data_buffer := b }

/-- Runtime configuration (`Config`, `runtime/src/lib.rs`). -/
structure Config where
  gas_ext_code : Nat
  gas_ext_code_hash : Nat
  gas_sstore_set : Nat
  gas_sstore_reset : Nat
  refund_sstore_clears : Int
  gas_balance : Nat
  gas_sload : Nat
  gas_suicide : Nat
  gas_suicide_new_account : Nat
  gas_call : Nat
  gas_expbyte : Nat
  gas_transaction_create : Nat
  gas_transaction_call : Nat
  gas_transaction_zero_data : Nat
  gas_transaction_non_zero_data : Nat
  sstore_gas_metering : Bool
  sstore_revert_under_stipend : Bool
  err_on_call_with_more_gas : Bool
  call_l64_after_gas : Bool
  empty_considered_exists : Bool
  create_increase_nonce : Bool
  stack_limit : Nat
  memory_limit : Nat
  call_stack_limit : Nat
  create_contract_limit : Option Nat
  call_stipend : Nat
  has_delegate_call : Bool
  has_create2 : Bool
  has_revert : Bool
  has_return_data : Bool
  has_bitwise_shifting : Bool
  has_chain_id : Bool
  has_self_balance : Bool
  has_ext_code_hash : Bool
  estimate : Bool
  deriving Repr

/-- Frontier hard-fork configuration (`Config::frontier`). -/
def Config.frontier : Config :=
  { gas_ext_code := 20, gas_ext_code_hash := 20, gas_balance := 20,
    gas_sload := 50, gas_sstore_set := 20000, gas_sstore_reset := 5000,
    refund_sstore_clears := 15000, gas_suicide := 0,
    gas_suicide_new_account := 0, gas_call := 40, gas_expbyte := 10,
    gas_transaction_create := 21000, gas_transaction_call := 21000,
    gas_transaction_zero_data := 4, gas_transaction_non_zero_data := 68,
    sstore_gas_metering := false, sstore_revert_under_stipend := false,
    err_on_call_with_more_gas := true, empty_considered_exists := true,
    create_increase_nonce := false, call_l64_after_gas := false,
    stack_limit := 1024, memory_limit := usizeMax, call_stack_limit := 1024,
    create_contract_limit := none, call_stipend := 2300,
    has_delegate_call := false, has_create2 := false, has_revert := false,
    has_return_data := false, has_bitwise_shifting := false,
    has_chain_id := false, has_self_balance := false,
    has_ext_code_hash := false, estimate := false }

/-- Istanbul hard-fork configuration (`Config::istanbul`). -/
def Config.istanbul : Config :=
  { gas_ext_code := 700, gas_ext_code_hash := 700, gas_balance := 700,
    gas_sload := 800, gas_sstore_set := 20000, gas_sstore_reset := 5000,
    refund_sstore_clears := 15000, gas_suicide := 5000,
    gas_suicide_new_account := 25000, gas_call := 700, gas_expbyte := 50,
    gas_transaction_create := 53000, gas_transaction_call := 21000,
    gas_transaction_zero_data := 4, gas_transaction_non_zero_data := 16,
    sstore_gas_metering := true, sstore_revert_under_stipend := true,
    err_on_call_with_more_gas := false, empty_considered_exists := false,
    create_increase_nonce := true, call_l64_after_gas := true,
    stack_limit := 1024, memory_limit := usizeMax, call_stack_limit := 1024,
    create_contract_limit := some 0x6000, call_stipend := 2300,
    has_delegate_call := true, has_create2 := true, has_revert := true,
    has_return_data := true, has_bitwise_shifting := true,
    has_chain_id := true, has_self_balance := true,
    has_ext_code_hash := true, estimate := false }

/-- The build-time configuration constant `CONFIG` (`runtime/src/lib.rs`),
the Istanbul preset. -/
def CONFIG : Config := Config.istanbul

/-- Create a new runtime with the given code and data (`Runtime::new`). -/
def Runtime.new (code valids data : List Nat) (context : Context) : Runtime :=
  { machine := Machine.new code valids data CONFIG.stack_limit CONFIG.memory_limit,
    status := .ok (), return_data_buffer := [], context := context }

/-- Get the return-data buffer (`Runtime::return_data`). -/
def Runtime.return_data (rt : Runtime) : List Nat :=
  rt.return_data_buffer

/-- Set the return-data buffer (`Runtime::set_return_data`). -/
def Runtime.set_return_data (rt : Runtime) (d : List Nat) : Runtime :=
  { rt with return_data_buffer := d }

/-- Control outcome of a system-opcode handler (`Control<H>`,
`runtime/src/eval`): continue, exit, or suspend on a call/create interrupt.
`CI` and `CRI` are the handler's associated call / create interrupt types. -/
inductive Control (CI CRI : Type) where
  | Continue
  | Exit (e : ExitReason)
  | CallInterrupt (i : CI)
  | CreateInterrupt (i : CRI)
  deriving DecidableEq, Repr

/-- Result of running a system-opcode handler on a runtime.  `panic` models a
Rust `unreachable!()` panic (the `StepLimitReached` arms of the resume
functions). -/
inductive Outcome (CI CRI : Type) where
  | norm (ctl : Control CI CRI) (rt : Runtime)
  | panic
  deriving DecidableEq, Repr

/-- Suspension handle surfaced to the outer driver (`Resolve`): tags which
kind of nested operation is pending and carries the handler's interrupt.  The
exclusive borrow of the parent runtime is represented by the runtime value
returned alongside the capture. -/
inductive Resolve (CI CRI : Type) where
  | Call (i : CI)
  | Create (i : CRI)
  deriving DecidableEq, Repr

/-- Result of `Runtime::step`: `ok` is Rust's `Ok(())`, `capture` is
`Err(Capture)`, and `panic` propagates an `unreachable!()` panic. -/
inductive StepOut (CI CRI : Type) where
  | ok (rt : Runtime)
  | capture (c : Capture ExitReason (Resolve CI CRI)) (rt : Runtime)
  | panic
  deriving DecidableEq, Repr

/-- Result of `Runtime::run`: the steps taken, the final capture and the
runtime.  `aborted` covers an `unreachable!()` panic and exhaustion of the
model's loop fuel. -/
inductive RunResult (CI CRI : Type) where
  | finished (steps : Nat) (c : Capture ExitReason (Resolve CI CRI)) (rt : Runtime)
  | aborted
  deriving DecidableEq, Repr

/-- Modelled from the spec (§4.1): the `Handler` capability (the trait lives
in `runtime/src/handler.rs`, not under `src/`), restricted to the operations
the embedded opcodes invoke: hashing, pre-opcode validation and nested
call / create dispatch.  `CI` and `CRI` are the associated interrupt types. -/
structure Handler (CI CRI : Type) where
  keccak256_h256 : List Nat → Nat
  pre_validate : Context → Nat → List Nat → Except ExitError Unit
  call : Nat → Option Transfer → List Nat → Option Nat → Bool → Context →
    Capture (ExitReason × List Nat) CI
  create : Nat → CreateScheme → Nat → List Nat → Option Nat →
    Capture (ExitReason × Option Nat × List Nat) CRI

variable {CI CRI : Type}

/-- Merge the early-exit channel of an opcode-handler computation with its
normal result: both carry a final `Outcome`. -/
def mergeE (x : Except (Outcome CI CRI) (Outcome CI CRI)) : Outcome CI CRI :=
  match x with
  | .ok o => o
  | .error o => o

/-- The `pop!` / `pop_u256!` macros: pop one word off the stack, or
early-exit with `Control::Exit(StackUnderflow)`.  (`pop!` yields an `H256`
and `pop_u256!` a `U256`; both are the same `Nat` in this model.) -/
def popWord (rt : Runtime) : Except (Outcome CI CRI) (Nat × Runtime) :=
  match rt.machine.stack.pop with
  | .ok (v, s) => .ok (v, rt.withStack s)
  | .error e => .error (.norm (.Exit (.Error e)) rt)

/-- The `push!` / `push_u256!` macros: push one word, or early-exit with
`Control::Exit(StackOverflow)`. -/
def pushWord (v : Nat) (rt : Runtime) : Except (Outcome CI CRI) (Unit × Runtime) :=
  match rt.machine.stack.push v with
  | .ok s => .ok ((), rt.withStack s)
  | .error e => .error (.norm (.Exit (.Error e)) rt)

/-- The `as_usize_or_fail!` macro, modelled from the spec (§7, argument out
of `usize` range): a value above `usize::MAX` early-exits with a fatal
`NotSupported`. -/
def as_usize_or_fail (v : Nat) (rt : Runtime) : Except (Outcome CI CRI) (Nat × Runtime) :=
  if v > usizeMax then .error (.norm (.Exit (.Fatal .NotSupported)) rt)
  else .ok (v, rt)

/-- The `try_or_fail!` macro applied to `memory_mut().resize_offset(..)`:
resize or early-exit with the resize error. -/
def tryResize (offset len : Nat) (rt : Runtime) : Except (Outcome CI CRI) (Unit × Runtime) :=
  match rt.machine.memory.resize_offset offset len with
  | .ok mem => .ok ((), rt.withMemory mem)
  | .error e => .error (.norm (.Exit (.Error e)) rt)

/-- `returndatasize` (`eval/system.rs`): push the length of the return-data
buffer. -/
def returndatasize (rt : Runtime) : Outcome CI CRI :=
  mergeE (do
    let size := rt.return_data_buffer.length
    let (_, rt) ← pushWord size rt
    pure (.norm .Continue rt))

/-- `returndatacopy` (`eval/system.rs`): pop `(memory_offset, data_offset,
len)`, resize memory, fail with `OutOfOffset` when the checked addition
`data_offset + len` overflows or exceeds the buffer length, otherwise copy
from the buffer into memory. -/
def returndatacopy (rt : Runtime) : Outcome CI CRI :=
  mergeE (do
    let (memory_offset, rt) ← popWord rt
    let (data_offset, rt) ← popWord rt
    let (len, rt) ← popWord rt
    let (memory_offset, rt) ← as_usize_or_fail memory_offset rt
    let (data_offset, rt) ← as_usize_or_fail data_offset rt
    let (len, rt) ← as_usize_or_fail len rt
    let (_, rt) ← tryResize memory_offset len rt
    if ((checkedAdd data_offset len).map
        (fun l => decide (l > rt.return_data_buffer.length))).getD true then
      pure (.norm (.Exit (.Error .OutOfOffset)) rt)
    else
      match rt.machine.memory.copy_large memory_offset data_offset len
          rt.return_data_buffer with
      | .ok mem => pure (.norm .Continue (rt.withMemory mem))
      | .error e => pure (.norm (.Exit (.Fatal e)) rt))

/-- `save_created_address` (`eval/system.rs`): push the created address on
`Succeed`, the zero word on `Revert` / `Error` / `Fatal`, exiting with the
fatal reason in the `Fatal` case; `StepLimitReached` is `unreachable!()`. -/
def save_created_address (rt : Runtime) (reason : ExitReason)
    (address : Option Nat) (_handler : Handler CI CRI) : Outcome CI CRI :=
  mergeE (do
    let create_address : Nat := address.getD 0
    match reason with
    | .Succeed _ => do
      let (_, rt) ← pushWord create_address rt
      pure (.norm .Continue rt)
    | .Revert _ => do
      let (_, rt) ← pushWord 0 rt
      pure (.norm .Continue rt)
    | .Error _ => do
      let (_, rt) ← pushWord 0 rt
      pure (.norm .Continue rt)
    | .Fatal e => do
      let (_, rt) ← pushWord 0 rt
      pure (.norm (.Exit (.Fatal e)) rt)
    | .StepLimitReached => pure .panic)

/-- `save_return_value` (`eval/system.rs`): pop `(out_offset, out_len)`,
resize memory, assign the return-data buffer, then by reason copy
`return_data[0..min(out_len, len)]` into memory and push the success word;
`StepLimitReached` is `unreachable!()`. -/
def save_return_value (rt : Runtime) (reason : ExitReason)
    (return_data : List Nat) (_handler : Handler CI CRI) : Outcome CI CRI :=
  mergeE (do
    let (out_offset, rt) ← popWord rt
    let (out_len, rt) ← popWord rt
    let (out_offset, rt) ← as_usize_or_fail out_offset rt
    let (out_len, rt) ← as_usize_or_fail out_len rt
    let (_, rt) ← tryResize out_offset out_len rt
    let rt := rt.withBuffer return_data
    let target_len := min out_len rt.return_data_buffer.length
    match reason with
    | .Succeed _ =>
      match rt.machine.memory.copy_large out_offset 0 target_len
          rt.return_data_buffer with
      | .ok mem => do
        let rt := rt.withMemory mem
        let (_, rt) ← pushWord 1 rt
        pure (.norm .Continue rt)
      | .error _ => do
        let (_, rt) ← pushWord 0 rt
        pure (.norm .Continue rt)
    | .Revert _ => do
      let (_, rt) ← pushWord 0 rt
      let rt :=
        match rt.machine.memory.copy_large out_offset 0 target_len
            rt.return_data_buffer with
        | .ok mem => rt.withMemory mem
        | .error _ => rt
      pure (.norm .Continue rt)
    | .Error _ => do
      let (_, rt) ← pushWord 0 rt
      pure (.norm .Continue rt)
    | .Fatal e => do
      let (_, rt) ← pushWord 0 rt
      pure (.norm (.Exit (.Fatal e)) rt)
    | .StepLimitReached => pure .panic)

/-- `create` (`eval/system.rs`): reset the return-data buffer, pop `(value,
code_offset, len)` (plus `salt` for CREATE2), resize memory and read the init
code, build the `CreateScheme`, invoke `handler.create`; on exit dispatch to
`save_created_address` (the child's return data is dropped), on trap emit
`CreateInterrupt`. -/
def create (rt : Runtime) (is_create2 : Bool) (handler : Handler CI CRI) :
    Outcome CI CRI :=
  mergeE (do
    let rt := rt.withBuffer []
    let (value, rt) ← popWord rt
    let (code_offset, rt) ← popWord rt
    let (len, rt) ← popWord rt
    let (code_offset, rt) ← as_usize_or_fail code_offset rt
    let (len, rt) ← as_usize_or_fail len rt
    let (_, rt) ← tryResize code_offset len rt
    let code := if len = 0 then [] else rt.machine.memory.get code_offset len
    let schemeStep : Except (Outcome CI CRI) (CreateScheme × Runtime) :=
      if is_create2 then do
        let (salt, rt) ← popWord rt
        let code_hash := handler.keccak256_h256 code
        pure (CreateScheme.Create2 rt.context.address code_hash salt, rt)
      else
        pure (CreateScheme.Legacy rt.context.address, rt)
    let (scheme, rt) ← schemeStep
    pure
      (match handler.create rt.context.address scheme value code none with
       | .Exit (reason, address, _return_data) =>
         save_created_address rt reason address handler
       | .Trap interrupt => .norm (.CreateInterrupt interrupt) rt))

/-- `call` (`eval/system.rs`): reset the return-data buffer, pop `gas`
(clamped to `None` above `u64::MAX`) and the target, pop `value` for
`Call`/`CallCode`, pop `(in_offset, in_len)` — `(out_offset, out_len)` stay
on the stack for `save_return_value` — resize memory and read the input,
build the child context and transfer by scheme, invoke `handler.call` with
`is_static = (scheme == StaticCall)`; on exit dispatch to
`save_return_value`, on trap emit `CallInterrupt`. -/
def call (rt : Runtime) (scheme : CallScheme) (handler : Handler CI CRI) :
    Outcome CI CRI :=
  mergeE (do
    let rt := rt.withBuffer []
    let (gas, rt) ← popWord rt
    let (to_, rt) ← popWord rt
    let gas : Option Nat := if gas > u64Max then none else some gas
    let valueStep : Except (Outcome CI CRI) (Nat × Runtime) :=
      match scheme with
      | .Call | .CallCode => popWord rt
      | .DelegateCall | .StaticCall => pure ((0 : Nat), rt)
    let (value, rt) ← valueStep
    let (in_offset, rt) ← popWord rt
    let (in_len, rt) ← popWord rt
    let (in_offset, rt) ← as_usize_or_fail in_offset rt
    let (in_len, rt) ← as_usize_or_fail in_len rt
    let (_, rt) ← tryResize in_offset in_len rt
    let input := if in_len = 0 then [] else rt.machine.memory.get in_offset in_len
    let context : Context :=
      match scheme with
      | .Call | .StaticCall =>
        { address := toH160 to_, caller := rt.context.address,
          apparent_value := value }
      | .CallCode =>
        { address := rt.context.address, caller := rt.context.address,
          apparent_value := value }
      | .DelegateCall =>
        { address := rt.context.address, caller := rt.context.caller,
          apparent_value := rt.context.apparent_value }
    let transfer : Option Transfer :=
      if scheme = .Call then
        some { source := rt.context.address, target := toH160 to_, value := value }
      else if scheme = .CallCode then
        some { source := rt.context.address, target := rt.context.address,
               value := value }
      else none
    pure
      (match handler.call (toH160 to_) transfer input gas
          (decide (scheme = .StaticCall)) context with
       | .Exit (reason, return_data) => save_return_value rt reason return_data handler
       | .Trap interrupt => .norm (.CallInterrupt interrupt) rt))

/-- Modelled from the spec (§4.2, §9): the system-opcode dispatch
`eval::eval` (`runtime/src/eval/mod.rs` is not under `src/`) — a flat match
from trap opcode to handler, restricted to the embedded opcodes; an
unhandled trap exits fatally. -/
def evalTrap (rt : Runtime) (opcode : Nat) (handler : Handler CI CRI) :
    Outcome CI CRI :=
  if opcode = 0x3d then returndatasize rt
  else if opcode = 0x3e then returndatacopy rt
  else if opcode = 0xf0 then create rt false handler
  else if opcode = 0xf1 then call rt .Call handler
  else if opcode = 0xf2 then call rt .CallCode handler
  else if opcode = 0xf4 then call rt .DelegateCall handler
  else if opcode = 0xf5 then create rt true handler
  else if opcode = 0xfa then call rt .StaticCall handler
  else .norm (.Exit (.Fatal .NotSupported)) rt

/-- `Runtime::step` (the `step!` macro, `runtime/src/lib.rs`): inspect the
next opcode and run `pre_validate` (a failure terminates the machine and
sets the status); return the previous exit when the status is terminal;
otherwise execute one machine step and on a trap hand off to the
system-opcode dispatch, wrapping interrupts into `Resolve` handles. -/
def Runtime.step (rt : Runtime) (handler : Handler CI CRI) : StepOut CI CRI :=
  let rt1 :=
    match rt.machine.inspect with
    | some (opcode, stack) =>
      match handler.pre_validate rt.context opcode stack with
      | .ok _ => rt
      | .error e =>
        { rt with machine := rt.machine.exit (.Error e),
                  status := .error (.Error e) }
    | none => rt
  match rt1.status with
  | .error e => .capture (.Exit e) rt1
  | .ok _ =>
    let (m', result) := rt1.machine.step
    let rt2 := { rt1 with machine := m' }
    match result with
    | .ok _ => .ok rt2
    | .error (.Exit e) => .capture (.Exit e) { rt2 with status := .error e }
    | .error (.Trap opcode) =>
      match evalTrap rt2 opcode handler with
      | .panic => .panic
      | .norm ctl rt3 =>
        match ctl with
        | .Continue => .ok rt3
        | .CallInterrupt i => .capture (.Trap (.Call i)) rt3
        | .CreateInterrupt i => .capture (.Trap (.Create i)) rt3
        | .Exit e =>
          .capture (.Exit e)
            { rt3 with machine := rt3.machine.exit e, status := .error e }

/-- The body of the `while` loop of `Runtime::run` (`runtime/src/lib.rs`),
with an explicit fuel bounding the number of loop iterations of the model
(the Rust loop has no such bound; running out of fuel yields `aborted`). -/
def Runtime.runLoop (handler : Handler CI CRI) (max_steps : Nat)
    (rt : Runtime) (steps : Nat) (fuel : Nat) : RunResult CI CRI :=
  if steps < max_steps then
    match fuel with
    | 0 => .aborted
    | f + 1 =>
      let (m', executed, capture) :=
        rt.machine.run (max_steps - steps) (handler.pre_validate rt.context)
      let rt' := { rt with machine := m' }
      let steps' := steps + executed
      match capture with
      | .Exit reason =>
        if reason = .StepLimitReached then
          .finished steps' (.Exit .StepLimitReached) rt'
        else
          .finished steps' (.Exit reason) { rt' with status := .error reason }
      | .Trap opcode =>
        match evalTrap rt' opcode handler with
        | .panic => .aborted
        | .norm ctl rt'' =>
          match ctl with
          | .Continue => Runtime.runLoop handler max_steps rt'' steps' f
          | .CallInterrupt i => .finished steps' (.Trap (.Call i)) rt''
          | .CreateInterrupt i => .finished steps' (.Trap (.Create i)) rt''
          | .Exit e =>
            .finished steps' (.Exit e)
              { rt'' with machine := rt''.machine.exit e, status := .error e }
  else
    .finished steps (.Exit .StepLimitReached) rt

/-- `Runtime::run` (`runtime/src/lib.rs`): return `(0, Exit(previous))` when
already terminated, otherwise loop stepping the machine up to `max_steps`
steps, handling traps through the dispatch layer and surfacing
`StepLimitReached` when the budget is exhausted (the status is left
untouched in that case, so the runtime stays resumable). -/
def Runtime.run (rt : Runtime) (max_steps : Nat) (handler : Handler CI CRI) :
    RunResult CI CRI :=
  match rt.status with
  | .error e => .finished 0 (.Exit e) rt
  | .ok _ =>
    Runtime.runLoop handler max_steps rt 0 (max_steps + rt.machine.code.length + 1)

/-- Runtime carried by a `norm` outcome, if any. -/
def Outcome.rtOf : Outcome CI CRI → Option Runtime
  | .norm _ rt => some rt
  | .panic => none

/-- Control carried by a `norm` outcome, if any. -/
def Outcome.ctlOf : Outcome CI CRI → Option (Control CI CRI)
  | .norm ctl _ => some ctl
  | .panic => none

/-- Interrupt type echoing the exact arguments of a `handler.call` invocation. -/
abbrev CallEcho : Type :=
  Nat × Option Transfer × List Nat × Option Nat × Bool × Context

/-- Interrupt type echoing the exact arguments of a `handler.create` invocation. -/
abbrev CreateEcho : Type :=
  Nat × CreateScheme × Nat × List Nat × Option Nat

/-- Handler whose nested-execution operations trap, echoing their arguments
through the interrupt. -/
def trapHandler : Handler CallEcho CreateEcho :=
  { keccak256_h256 := fun _ => 42,
    pre_validate := fun _ _ _ => .ok (),
    call := fun a t i g s c => .Trap (a, t, i, g, s, c),
    create := fun a s v c g => .Trap (a, s, v, c, g) }

/-- Handler whose nested-execution operations exit successfully with empty
return data. -/
def nilHandler : Handler Unit Unit :=
  { keccak256_h256 := fun _ => 0,
    pre_validate := fun _ _ _ => .ok (),
    call := fun _ _ _ _ _ _ => .Exit (.Succeed .Stopped, []),
    create := fun _ _ _ _ _ => .Exit (.Succeed .Stopped, none, []) }

/-- Handler whose `create` completes with a `Revert` carrying the two bytes
`[0xDE, 0xAD]` of child return data. -/
def revertCreateHandler : Handler Unit Unit :=
  { nilHandler with
    create := fun _ _ _ _ _ => .Exit (.Revert .Reverted, none, [222, 173]) }

/-- Handler whose `create` completes with the given reason, address and
child return data. -/
def constCreateHandler (reason : ExitReason) (addr : Option Nat)
    (rd : List Nat) : Handler Unit Unit :=
  { nilHandler with create := fun _ _ _ _ _ => .Exit (reason, addr, rd) }

/-- Sample per-frame context used by the concrete witnesses. -/
def sampleContext : Context := ⟨100, 200, 5⟩

/-- Concrete runtime builder used by the witnesses: a one-opcode frame with
the given stack, memory bytes and return-data buffer. -/
def mkRuntime (stack memBytes buffer : List Nat) : Runtime :=
  { machine := { code := [0xf1], valids := [], data := [], position := .ok 0,
                 stack := ⟨stack, 1024⟩, memory := ⟨memBytes, 1000⟩ },
    status := .ok (), return_data_buffer := buffer, context := sampleContext }

/-- Concrete runtime that has already terminated with `Succeed(Stopped)`. -/
def haltedRuntime : Runtime :=
  { machine := { code := [0x00], valids := [], data := [],
                 position := .error (.Succeed .Stopped),
                 stack := ⟨[], 1024⟩, memory := ⟨[], 1000⟩ },
    status := .error (.Succeed .Stopped), return_data_buffer := [],
    context := sampleContext }

/-- Concrete running runtime with three pure opcodes. -/
def pureRuntime : Runtime :=
  Runtime.new [0x5b, 0x5b, 0x00] [] [] sampleContext

/-- Status-preservation invariant on an outcome relative to a base runtime:
a normal outcome keeps the status and never carries a `StepLimitReached`
control exit; a panic is vacuous. -/
def PresO (rt0 : Runtime) : Outcome CI CRI → Prop
  | .norm ctl rt1 => rt1.status = rt0.status ∧ ctl ≠ .Exit .StepLimitReached
  | .panic => True

/-- Status-preservation invariant on an in-progress opcode computation. -/
def PresE (rt0 : Runtime) {α : Type} : Except (Outcome CI CRI) (α × Runtime) → Prop
  | .ok (_, rt1) => rt1.status = rt0.status
  | .error o => PresO rt0 o

/-- Status-preservation invariant on a finished opcode computation. -/
def PresOE (rt0 : Runtime) : Except (Outcome CI CRI) (Outcome CI CRI) → Prop
  | .ok o => PresO rt0 o
  | .error o => PresO rt0 o

/-! Helper lemmas.  None of the claim theorems below is used by any other
declaration; shared reasoning lives in these helpers. -/

@[simp]
theorem withStack_status (rt : Runtime) (s : Stack) :
    (rt.withStack s).status = rt.status := rfl

@[simp]
theorem withStack_context (rt : Runtime) (s : Stack) :
    (rt.withStack s).context = rt.context := rfl

@[simp]
theorem withStack_buffer (rt : Runtime) (s : Stack) :
    (rt.withStack s).return_data_buffer = rt.return_data_buffer := rfl

@[simp]
theorem withStack_stack (rt : Runtime) (s : Stack) :
    (rt.withStack s).machine.stack = s := rfl

@[simp]
theorem withStack_memory (rt : Runtime) (s : Stack) :
    (rt.withStack s).machine.memory = rt.machine.memory := rfl

@[simp]
theorem withMemory_status (rt : Runtime) (m : Memory) :
    (rt.withMemory m).status = rt.status := rfl

@[simp]
theorem withMemory_context (rt : Runtime) (m : Memory) :
    (rt.withMemory m).context = rt.context := rfl

@[simp]
theorem withMemory_buffer (rt : Runtime) (m : Memory) :
    (rt.withMemory m).return_data_buffer = rt.return_data_buffer := rfl

@[simp]
theorem withMemory_stack (rt : Runtime) (m : Memory) :
    (rt.withMemory m).machine.stack = rt.machine.stack := rfl

@[simp]
theorem withMemory_memory (rt : Runtime) (m : Memory) :
    (rt.withMemory m).machine.memory = m := rfl

@[simp]
theorem withBuffer_status (rt : Runtime) (b : List Nat) :
    (rt.withBuffer b).status = rt.status := rfl

@[simp]
theorem withBuffer_context (rt : Runtime) (b : List Nat) :
    (rt.withBuffer b).context = rt.context := rfl

@[simp]
theorem withBuffer_buffer (rt : Runtime) (b : List Nat) :
    (rt.withBuffer b).return_data_buffer = b := rfl

@[simp]
theorem withBuffer_stack (rt : Runtime) (b : List Nat) :
    (rt.withBuffer b).machine.stack = rt.machine.stack := rfl

@[simp]
theorem withBuffer_memory (rt : Runtime) (b : List Nat) :
    (rt.withBuffer b).machine.memory = rt.machine.memory := rfl

/-- Characterisation of `save_created_address` on a non-full stack: exactly
one word is pushed — the created address (zero if absent) on `Succeed`, the
zero word otherwise — memory, buffer and context are untouched, and control
continues except on `Fatal`, which re-exits with the fatal reason;
`StepLimitReached` panics. -/
theorem save_created_address_spec (rt : Runtime) (reason : ExitReason)
    (addr : Option Nat) (h : Handler CI CRI)
    (hcap : rt.machine.stack.data.length < rt.machine.stack.limit) :
    save_created_address rt reason addr h =
      match reason with
      | .Succeed _ => .norm .Continue
          (rt.withStack ⟨addr.getD 0 :: rt.machine.stack.data, rt.machine.stack.limit⟩)
      | .Revert _ => .norm .Continue
          (rt.withStack ⟨0 :: rt.machine.stack.data, rt.machine.stack.limit⟩)
      | .Error _ => .norm .Continue
          (rt.withStack ⟨0 :: rt.machine.stack.data, rt.machine.stack.limit⟩)
      | .Fatal e => .norm (.Exit (.Fatal e))
          (rt.withStack ⟨0 :: rt.machine.stack.data, rt.machine.stack.limit⟩)
      | .StepLimitReached => .panic := by
  have hpush : ¬ (rt.machine.stack.data.length + 1 > rt.machine.stack.limit) := by omega
  cases reason <;>
    simp [save_created_address, mergeE, pushWord, Stack.push, hpush,
      bind, Except.bind, pure, Except.pure]

/-- Characterisation of `save_return_value` when the popped `(out_offset,
out_len)` fit in `usize`, the resize succeeds and the stack is not full:
`(out_offset, out_len)` are popped, memory is resized, the return-data
buffer becomes `return_data`, and with `target_len = min(out_len,
len(return_data))` the reason decides the copy and the pushed word. -/
theorem save_return_value_spec (rt : Runtime) (reason : ExitReason)
    (rd : List Nat) (h : Handler CI CRI) (out_off out_len : Nat)
    (rest : List Nat) (mem' : Memory)
    (hstk : rt.machine.stack.data = out_off :: out_len :: rest)
    (hoff : out_off ≤ usizeMax) (hlen : out_len ≤ usizeMax)
    (hres : rt.machine.memory.resize_offset out_off out_len = .ok mem')
    (hcap : rest.length < rt.machine.stack.limit) :
    save_return_value rt reason rd h =
      match reason with
      | .Succeed _ =>
        match mem'.copy_large out_off 0 (min out_len rd.length) rd with
        | .ok mem2 => .norm .Continue
            (((rt.withMemory mem2).withBuffer rd).withStack
              ⟨1 :: rest, rt.machine.stack.limit⟩)
        | .error _ => .norm .Continue
            (((rt.withMemory mem').withBuffer rd).withStack
              ⟨0 :: rest, rt.machine.stack.limit⟩)
      | .Revert _ => .norm .Continue
          ((rt.withMemory
              (match mem'.copy_large out_off 0 (min out_len rd.length) rd with
               | .ok mem2 => mem2
               | .error _ => mem')).withBuffer rd |>.withStack
            ⟨0 :: rest, rt.machine.stack.limit⟩)
      | .Error _ => .norm .Continue
          (((rt.withMemory mem').withBuffer rd).withStack
            ⟨0 :: rest, rt.machine.stack.limit⟩)
      | .Fatal e => .norm (.Exit (.Fatal e))
          (((rt.withMemory mem').withBuffer rd).withStack
            ⟨0 :: rest, rt.machine.stack.limit⟩)
      | .StepLimitReached => .panic := by
  have hpush : ¬ (rest.length + 1 > rt.machine.stack.limit) := by omega
  have hoff' : ¬ (out_off > usizeMax) := by omega
  have hlen' : ¬ (out_len > usizeMax) := by omega
  cases reason <;>
    cases hc : mem'.copy_large out_off 0 (min out_len rd.length) rd <;>
      simp [save_return_value, mergeE, popWord, pushWord, as_usize_or_fail,
        tryResize, Stack.pop, Stack.push, Runtime.withStack, Runtime.withMemory,
        Runtime.withBuffer, hstk, hoff', hlen', hres, hpush, hc,
        bind, Except.bind, pure, Except.pure]

/-- Characterisation of the CALL-family dispatch when the stack holds, from
the top, `gas`, the target, `value` (for `Call`/`CallCode` only), `(in_offset,
in_len)` and then the rest, the input window fits in `usize` and the resize
succeeds: the buffer is reset, the arguments are popped in that order
(`(out_offset, out_len)` stay in `rest` for the resume), and `handler.call`
receives the clamped gas, the scheme-determined context and transfer, and
`is_static` exactly for `StaticCall`; an exit is folded through
`save_return_value`, a trap surfaces `CallInterrupt`. -/
theorem call_spec (rt : Runtime) (scheme : CallScheme) (h : Handler CI CRI)
    (gas to_ value in_off in_len : Nat) (rest : List Nat) (mem' : Memory)
    (hstk : rt.machine.stack.data =
      gas :: to_ ::
        ((if scheme = .Call ∨ scheme = .CallCode then [value] else []) ++
          in_off :: in_len :: rest))
    (hin : in_off ≤ usizeMax) (hlen : in_len ≤ usizeMax)
    (hres : rt.machine.memory.resize_offset in_off in_len = .ok mem') :
    call rt scheme h =
      match h.call (toH160 to_)
        (if scheme = .Call then
          some ⟨rt.context.address, toH160 to_,
                if scheme = .Call ∨ scheme = .CallCode then value else 0⟩
         else if scheme = .CallCode then
          some ⟨rt.context.address, rt.context.address,
                if scheme = .Call ∨ scheme = .CallCode then value else 0⟩
         else none)
        (if in_len = 0 then [] else mem'.get in_off in_len)
        (if gas > u64Max then none else some gas)
        (decide (scheme = .StaticCall))
        (if scheme = .CallCode then
          ⟨rt.context.address, rt.context.address,
           if scheme = .Call ∨ scheme = .CallCode then value else 0⟩
         else if scheme = .DelegateCall then rt.context
         else
          ⟨toH160 to_, rt.context.address,
           if scheme = .Call ∨ scheme = .CallCode then value else 0⟩) with
      | .Exit (reason, return_data) =>
        save_return_value
          (((rt.withStack ⟨rest, rt.machine.stack.limit⟩).withMemory mem').withBuffer [])
          reason return_data h
      | .Trap i =>
        .norm (.CallInterrupt i)
          (((rt.withStack ⟨rest, rt.machine.stack.limit⟩).withMemory mem').withBuffer []) := by
  have hin' : ¬ (in_off > usizeMax) := by omega
  have hlen' : ¬ (in_len > usizeMax) := by omega
  cases scheme <;>
    simp [call, mergeE, popWord, as_usize_or_fail, tryResize, Stack.pop,
      Runtime.withStack, Runtime.withMemory, Runtime.withBuffer, hstk, hin',
      hlen', hres, bind, Except.bind, pure, Except.pure]

/-- Characterisation of the CREATE/CREATE2 dispatch when the stack holds,
from the top, `value`, `(code_offset, len)`, the CREATE2 `salt`, and then the
rest, with the code window fitting in `usize` and the resize succeeding: the
buffer is reset, the scheme is `Legacy` or `Create2` over the keccak hash of
the init code, and `handler.create` is invoked with the frame's address and
no gas bound; an exit is folded through `save_created_address` (the child's
return data is dropped), a trap surfaces `CreateInterrupt`. -/
theorem create_spec (rt : Runtime) (is_create2 : Bool) (h : Handler CI CRI)
    (value code_off len salt : Nat) (rest : List Nat) (mem' : Memory)
    (hstk : rt.machine.stack.data =
      value :: code_off :: len ::
        ((if is_create2 then [salt] else []) ++ rest))
    (hoff : code_off ≤ usizeMax) (hlen : len ≤ usizeMax)
    (hres : rt.machine.memory.resize_offset code_off len = .ok mem') :
    create rt is_create2 h =
      match h.create rt.context.address
        (if is_create2 then
          CreateScheme.Create2 rt.context.address
            (h.keccak256_h256 (if len = 0 then [] else mem'.get code_off len)) salt
         else CreateScheme.Legacy rt.context.address)
        value (if len = 0 then [] else mem'.get code_off len) none with
      | .Exit (reason, addr, _) =>
        save_created_address
          (((rt.withStack ⟨rest, rt.machine.stack.limit⟩).withMemory mem').withBuffer [])
          reason addr h
      | .Trap i =>
        .norm (.CreateInterrupt i)
          (((rt.withStack ⟨rest, rt.machine.stack.limit⟩).withMemory mem').withBuffer []) := by
  have hoff' : ¬ (code_off > usizeMax) := by omega
  have hlen' : ¬ (len > usizeMax) := by omega
  cases is_create2 <;>
    simp [create, mergeE, popWord, as_usize_or_fail, tryResize, Stack.pop,
      Runtime.withStack, Runtime.withMemory, Runtime.withBuffer, hstk, hoff',
      hlen', hres, bind, Except.bind, pure, Except.pure]

/-- Characterisation of `returndatasize` on a non-full stack: the length of
the return-data buffer is pushed and execution continues. -/
theorem returndatasize_spec (rt : Runtime)
    (hcap : rt.machine.stack.data.length < rt.machine.stack.limit) :
    (returndatasize rt : Outcome CI CRI) =
      .norm .Continue
        (rt.withStack ⟨rt.return_data_buffer.length :: rt.machine.stack.data,
          rt.machine.stack.limit⟩) := by
  have hpush : ¬ (rt.machine.stack.data.length + 1 > rt.machine.stack.limit) := by omega
  simp [returndatasize, mergeE, pushWord, Stack.push, hpush,
    bind, Except.bind, pure, Except.pure]

/-- Characterisation of `returndatacopy` when the three popped words fit in
`usize` and the resize succeeds: the opcode fails with `OutOfOffset` exactly
when the checked addition `data_offset + len` overflows or exceeds the
buffer length, and otherwise copies `len` buffer bytes from `data_offset`
into memory at `memory_offset`. -/
theorem returndatacopy_spec (rt : Runtime)
    (memory_offset data_offset len : Nat) (rest : List Nat) (mem' : Memory)
    (hstk : rt.machine.stack.data = memory_offset :: data_offset :: len :: rest)
    (hmo : memory_offset ≤ usizeMax) (hdo : data_offset ≤ usizeMax)
    (hlen : len ≤ usizeMax)
    (hres : rt.machine.memory.resize_offset memory_offset len = .ok mem') :
    (returndatacopy rt : Outcome CI CRI) =
      (if data_offset + len > usizeMax ∨
          data_offset + len > rt.return_data_buffer.length then
        .norm (.Exit (.Error .OutOfOffset))
          ((rt.withStack ⟨rest, rt.machine.stack.limit⟩).withMemory mem')
      else
        match mem'.copy_large memory_offset data_offset len
            rt.return_data_buffer with
        | .ok mem2 => .norm .Continue
            ((rt.withStack ⟨rest, rt.machine.stack.limit⟩).withMemory mem2)
        | .error e => .norm (.Exit (.Fatal e))
            ((rt.withStack ⟨rest, rt.machine.stack.limit⟩).withMemory mem')) := by
  have hmo' : ¬ (memory_offset > usizeMax) := by omega
  have hdo' : ¬ (data_offset > usizeMax) := by omega
  have hlen' : ¬ (len > usizeMax) := by omega
  by_cases hov : data_offset + len > usizeMax
  · simp [returndatacopy, mergeE, popWord, as_usize_or_fail, tryResize,
      Stack.pop, checkedAdd, Runtime.withStack, Runtime.withMemory, hstk,
      hmo', hdo', hlen', hres, hov, bind, Except.bind, pure, Except.pure]
  · by_cases hbig : data_offset + len > rt.return_data_buffer.length
    · simp [returndatacopy, mergeE, popWord, as_usize_or_fail, tryResize,
        Stack.pop, checkedAdd, Runtime.withStack, Runtime.withMemory, hstk,
        hmo', hdo', hlen', hres, hov, hbig, bind, Except.bind, pure, Except.pure]
    · cases hc : mem'.copy_large memory_offset data_offset len
          rt.return_data_buffer <;>
        simp [returndatacopy, mergeE, popWord, as_usize_or_fail, tryResize,
          Stack.pop, checkedAdd, Runtime.withStack, Runtime.withMemory, hstk,
          hmo', hdo', hlen', hres, hov, hbig, hc, bind, Except.bind, pure,
          Except.pure]

theorem presO_trans {rtA rt0 : Runtime} {o : Outcome CI CRI}
    (h1 : PresO rtA o) (h2 : rtA.status = rt0.status) : PresO rt0 o := by
  cases o with
  | norm ctl rt1 => exact ⟨h1.1.trans h2, h1.2⟩
  | panic => trivial

theorem presOE_mergeE {rt0 : Runtime} {x : Except (Outcome CI CRI) (Outcome CI CRI)}
    (h : PresOE rt0 x) : PresO rt0 (mergeE x) := by
  cases x <;> exact h

theorem presOE_bind {α : Type} {rt0 : Runtime}
    {x : Except (Outcome CI CRI) (α × Runtime)}
    {f : α × Runtime → Except (Outcome CI CRI) (Outcome CI CRI)}
    (hx : PresE rt0 x)
    (hf : ∀ a rt1, rt1.status = rt0.status → PresOE rt0 (f (a, rt1))) :
    PresOE rt0 (x >>= f) := by
  cases x with
  | error o => exact hx
  | ok v => exact hf v.1 v.2 hx

theorem presOE_pure {rt0 : Runtime} {o : Outcome CI CRI} (h : PresO rt0 o) :
    PresOE rt0 (pure o) := h

theorem presE_popWord {rt0 rt1 : Runtime} (h : rt1.status = rt0.status) :
    PresE rt0 (@popWord CI CRI rt1) := by
  unfold popWord
  split
  · exact h
  · exact ⟨h, by simp⟩

theorem presE_pushWord {rt0 rt1 : Runtime} (v : Nat) (h : rt1.status = rt0.status) :
    PresE rt0 (@pushWord CI CRI v rt1) := by
  unfold pushWord
  split
  · exact h
  · exact ⟨h, by simp⟩

theorem presE_as_usize {rt0 rt1 : Runtime} (v : Nat) (h : rt1.status = rt0.status) :
    PresE rt0 (@as_usize_or_fail CI CRI v rt1) := by
  unfold as_usize_or_fail
  split
  · exact ⟨h, by simp⟩
  · exact h

theorem presE_tryResize {rt0 rt1 : Runtime} (off len : Nat)
    (h : rt1.status = rt0.status) :
    PresE rt0 (@tryResize CI CRI off len rt1) := by
  unfold tryResize
  split
  · exact h
  · exact ⟨h, by simp⟩

/-- `save_created_address` preserves the status and never emits a
`StepLimitReached` control exit. -/
theorem save_created_address_presO (rt : Runtime) (reason : ExitReason)
    (addr : Option Nat) (h : Handler CI CRI) :
    PresO rt (save_created_address rt reason addr h) := by
  unfold save_created_address
  refine presOE_mergeE ?_
  cases reason <;>
    first
    | exact presOE_pure trivial
    | · refine presOE_bind (presE_pushWord _ rfl) ?_
        intro a rt1 h1
        exact presOE_pure ⟨h1, by simp⟩

/-- `returndatasize` preserves the status and never emits a
`StepLimitReached` control exit. -/
theorem returndatasize_presO (rt : Runtime) :
    PresO rt (@returndatasize CI CRI rt) := by
  unfold returndatasize
  refine presOE_mergeE ?_
  refine presOE_bind (presE_pushWord _ rfl) ?_
  intro a rt1 h1
  exact presOE_pure ⟨h1, by simp⟩

/-- `returndatacopy` preserves the status and never emits a
`StepLimitReached` control exit. -/
theorem returndatacopy_presO (rt : Runtime) :
    PresO rt (@returndatacopy CI CRI rt) := by
  unfold returndatacopy
  refine presOE_mergeE ?_
  refine presOE_bind (presE_popWord rfl) ?_
  intro a1 rt1 h1
  refine presOE_bind (presE_popWord h1) ?_
  intro a2 rt2 h2
  refine presOE_bind (presE_popWord h2) ?_
  intro a3 rt3 h3
  refine presOE_bind (presE_as_usize _ h3) ?_
  intro a4 rt4 h4
  refine presOE_bind (presE_as_usize _ h4) ?_
  intro a5 rt5 h5
  refine presOE_bind (presE_as_usize _ h5) ?_
  intro a6 rt6 h6
  refine presOE_bind (presE_tryResize _ _ h6) ?_
  intro a7 rt7 h7
  dsimp only
  split
  · exact presOE_pure ⟨h7, by simp⟩
  · split
    · exact presOE_pure ⟨h7, by simp⟩
    · exact presOE_pure ⟨h7, by simp⟩

theorem presE_bind {α β : Type} {rt0 : Runtime}
    {x : Except (Outcome CI CRI) (α × Runtime)}
    {f : α × Runtime → Except (Outcome CI CRI) (β × Runtime)}
    (hx : PresE rt0 x)
    (hf : ∀ a rt1, rt1.status = rt0.status → PresE rt0 (f (a, rt1))) :
    PresE rt0 (x >>= f) := by
  cases x with
  | error o => exact hx
  | ok v => exact hf v.1 v.2 hx

theorem presE_pure {α : Type} {rt0 rt1 : Runtime} {a : α}
    (h : rt1.status = rt0.status) :
    PresE rt0 ((pure (a, rt1) : Except (Outcome CI CRI) (α × Runtime))) := h

/-- `save_return_value` preserves the status and never emits a
`StepLimitReached` control exit. -/
theorem save_return_value_presO (rt : Runtime) (reason : ExitReason)
    (rd : List Nat) (h : Handler CI CRI) :
    PresO rt (save_return_value rt reason rd h) := by
  unfold save_return_value
  refine presOE_mergeE ?_
  refine presOE_bind (presE_popWord rfl) ?_
  intro a1 rt1 h1
  refine presOE_bind (presE_popWord h1) ?_
  intro a2 rt2 h2
  refine presOE_bind (presE_as_usize _ h2) ?_
  intro a3 rt3 h3
  refine presOE_bind (presE_as_usize _ h3) ?_
  intro a4 rt4 h4
  refine presOE_bind (presE_tryResize _ _ h4) ?_
  intro a5 rt5 h5
  dsimp only
  repeat' split
  all_goals
    first
    | exact presOE_pure trivial
    | (refine presOE_bind (presE_pushWord _ (by simp [h5])) ?_
       intro a6 rt6 h6
       dsimp only
       repeat' split
       all_goals exact presOE_pure ⟨by simp [h6], by simp⟩)

/-- `create` preserves the status and never emits a `StepLimitReached`
control exit. -/
theorem create_presO (rt : Runtime) (is_create2 : Bool) (h : Handler CI CRI) :
    PresO rt (create rt is_create2 h) := by
  unfold create
  refine presOE_mergeE ?_
  refine presOE_bind (presE_popWord (by simp)) ?_
  intro a1 rt1 h1
  refine presOE_bind (presE_popWord h1) ?_
  intro a2 rt2 h2
  refine presOE_bind (presE_popWord h2) ?_
  intro a3 rt3 h3
  refine presOE_bind (presE_as_usize _ h3) ?_
  intro a4 rt4 h4
  refine presOE_bind (presE_as_usize _ h4) ?_
  intro a5 rt5 h5
  refine presOE_bind (presE_tryResize _ _ h5) ?_
  intro a6 rt6 h6
  dsimp only
  refine presOE_bind ?_ ?_
  · split
    · refine presE_bind (presE_popWord h6) ?_
      intro s rt7 h7
      dsimp only
      exact presE_pure h7
    · exact presE_pure h6
  · intro a7 rt7 h7
    dsimp only
    refine presOE_pure ?_
    split
    · exact presO_trans (save_created_address_presO _ _ _ _) h7
    · exact ⟨h7, by simp⟩

/-- `call` preserves the status and never emits a `StepLimitReached`
control exit. -/
theorem call_presO (rt : Runtime) (scheme : CallScheme) (h : Handler CI CRI) :
    PresO rt (call rt scheme h) := by
  unfold call
  refine presOE_mergeE ?_
  refine presOE_bind (presE_popWord (by simp)) ?_
  intro a1 rt1 h1
  refine presOE_bind (presE_popWord h1) ?_
  intro a2 rt2 h2
  refine presOE_bind ?_ ?_
  · split
    all_goals first
      | exact presE_popWord h2
      | exact presE_pure h2
  · intro a3 rt3 h3
    dsimp only
    refine presOE_bind (presE_popWord h3) ?_
    intro a4 rt4 h4
    refine presOE_bind (presE_popWord h4) ?_
    intro a5 rt5 h5
    refine presOE_bind (presE_as_usize _ h5) ?_
    intro a6 rt6 h6
    refine presOE_bind (presE_as_usize _ h6) ?_
    intro a7 rt7 h7
    refine presOE_bind (presE_tryResize _ _ h7) ?_
    intro a8 rt8 h8
    dsimp only
    refine presOE_pure ?_
    split
    · exact presO_trans (save_return_value_presO _ _ _ _) h8
    · exact ⟨h8, by simp⟩

/-- The system-opcode dispatch preserves the status and never emits a
`StepLimitReached` control exit. -/
theorem evalTrap_presO (rt : Runtime) (opcode : Nat) (h : Handler CI CRI) :
    PresO rt (evalTrap rt opcode h) := by
  unfold evalTrap
  repeat' split
  all_goals
    first
    | exact returndatasize_presO rt
    | exact returndatacopy_presO rt
    | exact create_presO rt _ h
    | exact call_presO rt _ h
    | exact ⟨rfl, by simp⟩

/-- The lower machine's loop never reports more executed steps than its
budget. -/
theorem Machine.run_le (budget : Nat) (m : Machine)
    (pre : Nat → List Nat → Except ExitError Unit) :
    (m.run budget pre).2.1 ≤ budget := by
  induction budget generalizing m with
  | zero => simp [Machine.run]
  | succ b ih =>
    simp only [Machine.run]
    split
    · simp
    · rcases hs : m.step with ⟨m', r⟩
      cases r with
      | ok _ =>
        rcases hr : m'.run b pre with ⟨m'', n, cap⟩
        have hle := ih m'
        rw [hr] at hle
        simp only at hle
        simp only [hs, hr]
        simpa using Nat.succ_le_succ hle
      | error cap => simp [hs]

/-- Invariant of the `Runtime::run` loop: a finished run reports at most
`max_steps` steps, and a `StepLimitReached` capture leaves the status
untouched (still running). -/
theorem runLoop_spec (h : Handler CI CRI) (max_steps : Nat) :
    ∀ (fuel steps : Nat) (rt : Runtime), rt.status = .ok () →
      steps ≤ max_steps →
      ∀ (n : Nat) (cap : Capture ExitReason (Resolve CI CRI)) (rt' : Runtime),
        Runtime.runLoop h max_steps rt steps fuel = .finished n cap rt' →
        n ≤ max_steps ∧ (cap = .Exit .StepLimitReached → rt'.status = .ok ()) := by
  intro fuel
  induction fuel with
  | zero =>
    intro steps rt hok hle n cap rt' hEq
    unfold Runtime.runLoop at hEq
    split at hEq
    · exact RunResult.noConfusion hEq
    · injection hEq with e1 e2 e3
      subst e1; subst e2; subst e3
      exact ⟨hle, fun _ => hok⟩
  | succ f ih =>
    intro steps rt hok hle n cap rt' hEq
    unfold Runtime.runLoop at hEq
    split at hEq
    case isFalse =>
      injection hEq with e1 e2 e3
      subst e1; subst e2; subst e3
      exact ⟨hle, fun _ => hok⟩
    case isTrue hlt =>
      rcases hm : rt.machine.run (max_steps - steps) (h.pre_validate rt.context)
        with ⟨m', executed, capture⟩
      have hexec := Machine.run_le (max_steps - steps) rt.machine
        (h.pre_validate rt.context)
      rw [hm] at hexec
      simp only at hexec
      simp only [hm] at hEq
      split at hEq
      case h_1 reason =>
        split at hEq
        · injection hEq with e1 e2 e3
          subst e1; subst e2; subst e3
          exact ⟨by omega, fun _ => hok⟩
        · next hne =>
            injection hEq with e1 e2 e3
            subst e1; subst e2; subst e3
            refine ⟨by omega, fun hcap => ?_⟩
            exact absurd (by injection hcap) hne
      case h_2 opcode =>
        cases hev : evalTrap { rt with machine := m' } opcode h with
        | panic => rw [hev] at hEq; exact RunResult.noConfusion hEq
        | norm ctl rt'' =>
          have hpres := evalTrap_presO { rt with machine := m' } opcode h
          rw [hev] at hpres
          obtain ⟨hst, hctl⟩ := hpres
          rw [hev] at hEq
          cases ctl with
          | Continue =>
            exact ih (steps + executed) rt'' (by simpa using hst.trans hok)
              (by omega) n cap rt' hEq
          | CallInterrupt i =>
            injection hEq with e1 e2 e3
            subst e1; subst e2; subst e3
            exact ⟨by omega, fun hcap => Capture.noConfusion hcap⟩
          | CreateInterrupt i =>
            injection hEq with e1 e2 e3
            subst e1; subst e2; subst e3
            exact ⟨by omega, fun hcap => Capture.noConfusion hcap⟩
          | Exit e =>
            injection hEq with e1 e2 e3
            subst e1; subst e2; subst e3
            refine ⟨by omega, fun hcap => ?_⟩
            exact absurd (by injection hcap with h4; exact h4 ▸ rfl) hctl

/-- Claim C1: for every `ExitReason` and byte sequence, when the parent
stack holds `(out_offset, out_len)` on top (fitting in `usize`, with the
resize succeeding and the stack not full), `save_return_value` pops them,
resizes memory to `[out_offset, out_offset + out_len)`, assigns
`return_data_buffer = return_data`, and with `target_len = min(out_len,
len(return_data))` behaves by reason: on `Succeed` it copies
`return_data[0..target_len]` to memory at `out_offset` and pushes 1
(0 if the copy fails), continuing; on `Revert` it pushes 0 and then copies
with failures ignored, continuing; on `Error` it pushes 0 and writes no
memory, continuing; on `Fatal e` it pushes 0 and exits with `e`. -/
theorem claim_C1 (rt : Runtime) (reason : ExitReason) (rd : List Nat)
    (h : Handler CI CRI) (out_off out_len : Nat) (rest : List Nat) (mem' : Memory)
    (hstk : rt.machine.stack.data = out_off :: out_len :: rest)
    (hoff : out_off ≤ usizeMax) (hlen : out_len ≤ usizeMax)
    (hres : rt.machine.memory.resize_offset out_off out_len = .ok mem')
    (hcap : rest.length < rt.machine.stack.limit) :
    save_return_value rt reason rd h =
      match reason with
      | .Succeed _ =>
        match mem'.copy_large out_off 0 (min out_len rd.length) rd with
        | .ok mem2 => .norm .Continue
            (((rt.withMemory mem2).withBuffer rd).withStack
              ⟨1 :: rest, rt.machine.stack.limit⟩)
        | .error _ => .norm .Continue
            (((rt.withMemory mem').withBuffer rd).withStack
              ⟨0 :: rest, rt.machine.stack.limit⟩)
      | .Revert _ => .norm .Continue
          ((rt.withMemory
              (match mem'.copy_large out_off 0 (min out_len rd.length) rd with
               | .ok mem2 => mem2
               | .error _ => mem')).withBuffer rd |>.withStack
            ⟨0 :: rest, rt.machine.stack.limit⟩)
      | .Error _ => .norm .Continue
          (((rt.withMemory mem').withBuffer rd).withStack
            ⟨0 :: rest, rt.machine.stack.limit⟩)
      | .Fatal e => .norm (.Exit (.Fatal e))
          (((rt.withMemory mem').withBuffer rd).withStack
            ⟨0 :: rest, rt.machine.stack.limit⟩)
      | .StepLimitReached => .panic :=
  save_return_value_spec rt reason rd h out_off out_len rest mem'
    hstk hoff hlen hres hcap

/-- Witness for C1 at a concrete reverting call result. -/
theorem claim_C1_witness :
    save_return_value (mkRuntime [0, 0, 9] [] []) (.Revert .Reverted)
      [222, 173] nilHandler =
      .norm .Continue
        ((((mkRuntime [0, 0, 9] [] []).withMemory ⟨[], 1000⟩).withBuffer
            [222, 173]).withStack ⟨[0, 9], 1024⟩) := by
  have hthm := claim_C1 (mkRuntime [0, 0, 9] [] []) (.Revert .Reverted)
    [222, 173] nilHandler 0 0 [9] ⟨[], 1000⟩ rfl (by decide) (by decide) rfl
    (by decide)
  exact hthm

/-- Claim C2: for every call scheme, the CALL-family dispatch first resets
the return-data buffer, then pops `gas` (values above `u64::MAX` become
`None`), pops the target, pops `value` exactly for `Call`/`CallCode` (0
otherwise), pops `(in_offset, in_len)` and leaves `(out_offset, out_len)`
on the stack; it builds the child context `{address = target, caller =
self, apparent_value = value}` for `Call`/`StaticCall`, `{address = self,
caller = self, apparent_value = value}` for `CallCode` and the parent
context verbatim for `DelegateCall`; it passes a transfer exactly for
`Call` (`self → target`) and `CallCode` (`self → self`), and invokes
`handler.call` with `is_static` true iff `StaticCall`. -/
theorem claim_C2 (rt : Runtime) (scheme : CallScheme) (h : Handler CI CRI)
    (gas to_ value in_off in_len out_off out_len : Nat) (rest : List Nat)
    (mem' : Memory)
    (hstk : rt.machine.stack.data =
      gas :: to_ ::
        ((if scheme = .Call ∨ scheme = .CallCode then [value] else []) ++
          in_off :: in_len :: out_off :: out_len :: rest))
    (hin : in_off ≤ usizeMax) (hlen : in_len ≤ usizeMax)
    (hres : rt.machine.memory.resize_offset in_off in_len = .ok mem') :
    call rt scheme h =
      match h.call (toH160 to_)
        (if scheme = .Call then
          some ⟨rt.context.address, toH160 to_,
                if scheme = .Call ∨ scheme = .CallCode then value else 0⟩
         else if scheme = .CallCode then
          some ⟨rt.context.address, rt.context.address,
                if scheme = .Call ∨ scheme = .CallCode then value else 0⟩
         else none)
        (if in_len = 0 then [] else mem'.get in_off in_len)
        (if gas > u64Max then none else some gas)
        (decide (scheme = .StaticCall))
        (if scheme = .CallCode then
          ⟨rt.context.address, rt.context.address,
           if scheme = .Call ∨ scheme = .CallCode then value else 0⟩
         else if scheme = .DelegateCall then rt.context
         else
          ⟨toH160 to_, rt.context.address,
           if scheme = .Call ∨ scheme = .CallCode then value else 0⟩) with
      | .Exit (reason, return_data) =>
        save_return_value
          (((rt.withStack ⟨out_off :: out_len :: rest, rt.machine.stack.limit⟩).withMemory
              mem').withBuffer [])
          reason return_data h
      | .Trap i =>
        .norm (.CallInterrupt i)
          (((rt.withStack ⟨out_off :: out_len :: rest, rt.machine.stack.limit⟩).withMemory
              mem').withBuffer []) :=
  call_spec rt scheme h gas to_ value in_off in_len
    (out_off :: out_len :: rest) mem' hstk hin hlen hres

/-- Witness for C2 at a concrete `DelegateCall` with an echoing trap
handler: no value word is popped, the transfer is `None`, the parent
context is inherited verbatim, `is_static` is false, and `(out_offset,
out_len) = (10, 20)` stay on the stack with the buffer reset. -/
theorem claim_C2_witness :
    call (mkRuntime [7, 777, 0, 0, 10, 20, 99] [] [5, 5]) .DelegateCall
      trapHandler =
      .norm
        (.CallInterrupt (777, none, [], some 7, false, sampleContext))
        ((((mkRuntime [7, 777, 0, 0, 10, 20, 99] [] [5, 5]).withStack
            ⟨[10, 20, 99], 1024⟩).withMemory ⟨[], 1000⟩).withBuffer []) := by
  have hthm := claim_C2 (mkRuntime [7, 777, 0, 0, 10, 20, 99] [] [5, 5])
    .DelegateCall trapHandler 7 777 0 0 0 10 20 [99] ⟨[], 1000⟩
    (by decide) (by decide) (by decide) rfl
  simpa [trapHandler, mkRuntime, sampleContext, toH160] using hthm

/-- Claim C3: for every exit reason and optional created address, on a
stack that is not full `save_created_address` pushes exactly one word: the
created address (left-padded, zero if absent) on `Succeed` (continuing),
the zero word on `Revert` and `Error` (continuing), and the zero word
followed by an exit with `e` on `Fatal e`. -/
theorem claim_C3 (rt : Runtime) (reason : ExitReason) (addr : Option Nat)
    (h : Handler CI CRI)
    (hcap : rt.machine.stack.data.length < rt.machine.stack.limit) :
    save_created_address rt reason addr h =
      match reason with
      | .Succeed _ => .norm .Continue
          (rt.withStack ⟨addr.getD 0 :: rt.machine.stack.data, rt.machine.stack.limit⟩)
      | .Revert _ => .norm .Continue
          (rt.withStack ⟨0 :: rt.machine.stack.data, rt.machine.stack.limit⟩)
      | .Error _ => .norm .Continue
          (rt.withStack ⟨0 :: rt.machine.stack.data, rt.machine.stack.limit⟩)
      | .Fatal e => .norm (.Exit (.Fatal e))
          (rt.withStack ⟨0 :: rt.machine.stack.data, rt.machine.stack.limit⟩)
      | .StepLimitReached => .panic :=
  save_created_address_spec rt reason addr h hcap

/-- Witness for C3 at a concrete successful creation. -/
theorem claim_C3_witness :
    save_created_address (mkRuntime [9] [] []) (.Succeed .Returned)
      (some 0xabc) nilHandler =
      .norm .Continue ((mkRuntime [9] [] []).withStack ⟨[0xabc, 9], 1024⟩) := by
  have hthm := claim_C3 (mkRuntime [9] [] []) (.Succeed .Returned)
    (some 0xabc) nilHandler (by decide)
  exact hthm

/-- Claim C6: `RETURNDATACOPY` with popped `(memory_offset, data_offset,
len)` (fitting in `usize`, with the resize succeeding) fails with
`OutOfOffset` exactly when the checked addition `data_offset + len`
overflows or exceeds the return-data buffer length; otherwise it copies
`len` buffer bytes starting at `data_offset` into memory at
`memory_offset`. -/
theorem claim_C6 (rt : Runtime) (memory_offset data_offset len : Nat)
    (rest : List Nat) (mem' : Memory)
    (hstk : rt.machine.stack.data = memory_offset :: data_offset :: len :: rest)
    (hmo : memory_offset ≤ usizeMax) (hdo : data_offset ≤ usizeMax)
    (hlen : len ≤ usizeMax)
    (hres : rt.machine.memory.resize_offset memory_offset len = .ok mem') :
    (returndatacopy rt : Outcome CI CRI) =
      (if data_offset + len > usizeMax ∨
          data_offset + len > rt.return_data_buffer.length then
        .norm (.Exit (.Error .OutOfOffset))
          ((rt.withStack ⟨rest, rt.machine.stack.limit⟩).withMemory mem')
      else
        match mem'.copy_large memory_offset data_offset len
            rt.return_data_buffer with
        | .ok mem2 => .norm .Continue
            ((rt.withStack ⟨rest, rt.machine.stack.limit⟩).withMemory mem2)
        | .error e => .norm (.Exit (.Fatal e))
            ((rt.withStack ⟨rest, rt.machine.stack.limit⟩).withMemory mem')) :=
  returndatacopy_spec rt memory_offset data_offset len rest mem'
    hstk hmo hdo hlen hres

/-- Witness for C6: an in-bounds copy of two buffer bytes and an
out-of-bounds request that fails with `OutOfOffset`. -/
theorem claim_C6_witness :
    (returndatacopy (mkRuntime [0, 0, 2, 9] [5, 5] [171, 205]) :
        Outcome Unit Unit) =
      .norm .Continue
        (((mkRuntime [0, 0, 2, 9] [5, 5] [171, 205]).withStack
            ⟨[9], 1024⟩).withMemory ⟨[171, 205], 1000⟩) ∧
    (returndatacopy (mkRuntime [0, 2, 1, 9] [5, 5] [171, 205]) :
        Outcome Unit Unit) =
      .norm (.Exit (.Error .OutOfOffset))
        (((mkRuntime [0, 2, 1, 9] [5, 5] [171, 205]).withStack
            ⟨[9], 1024⟩).withMemory ⟨[5, 5], 1000⟩) := by
  constructor
  · have hthm := @claim_C6 Unit Unit
      (mkRuntime [0, 0, 2, 9] [5, 5] [171, 205]) 0 0 2 [9] ⟨[5, 5], 1000⟩
      rfl (by decide) (by decide) (by decide) (by decide)
    simpa [mkRuntime] using hthm
  · have hthm := @claim_C6 Unit Unit
      (mkRuntime [0, 2, 1, 9] [5, 5] [171, 205]) 0 2 1 [9] ⟨[5, 5], 1000⟩
      rfl (by decide) (by decide) (by decide) (by decide)
    simpa [mkRuntime] using hthm

/-- Claim C7: if the runtime's status is already terminal with reason `e`
(so, by the status/machine agreement invariant, the machine position holds
a terminal exit), `step` returns `Capture::Exit(e)` with the runtime
unchanged — so no opcode executes, and repeating the call yields the same
result — and `run(max_steps)` returns `(0, Exit(e))` with the runtime
unchanged, for every `max_steps` and handler. -/
theorem claim_C7 (rt : Runtime) (e e' : ExitReason) (h : Handler CI CRI)
    (max_steps : Nat) (hstat : rt.status = .error e)
    (hpos : rt.machine.position = .error e') :
    Runtime.step rt h = .capture (.Exit e) rt ∧
    Runtime.run rt max_steps h = .finished 0 (.Exit e) rt := by
  constructor
  · simp [Runtime.step, Machine.inspect, hpos, hstat]
  · simp [Runtime.run, hstat]

/-- Witness for C7 on a concrete halted runtime. -/
theorem claim_C7_witness :
    Runtime.step haltedRuntime nilHandler =
      .capture (.Exit (.Succeed .Stopped)) haltedRuntime ∧
    Runtime.run haltedRuntime 5 nilHandler =
      .finished 0 (.Exit (.Succeed .Stopped)) haltedRuntime := by
  have hthm := claim_C7 haltedRuntime (.Succeed .Stopped) (.Succeed .Stopped)
    nilHandler 5 rfl rfl
  exact hthm

/-- Claim C8: on a running runtime, `run(max_steps)` reports at most
`max_steps` steps, and whenever it surfaces `StepLimitReached` the status
is still running (`Ok`), so a later `run`/`step` can resume; in particular
`run(0)` returns `(0, Exit(StepLimitReached))` with the runtime unchanged,
executing nothing. -/
theorem claim_C8 (rt : Runtime) (h : Handler CI CRI) (max_steps : Nat)
    (hok : rt.status = .ok ()) :
    (∀ (n : Nat) (cap : Capture ExitReason (Resolve CI CRI)) (rt' : Runtime),
      Runtime.run rt max_steps h = .finished n cap rt' →
      n ≤ max_steps ∧
        (cap = .Exit .StepLimitReached → rt'.status = .ok ())) ∧
    Runtime.run rt 0 h = .finished 0 (.Exit .StepLimitReached) rt := by
  constructor
  · intro n cap rt' hEq
    simp only [Runtime.run, hok] at hEq
    exact runLoop_spec h max_steps _ 0 rt hok (Nat.zero_le _) n cap rt' hEq
  · simp [Runtime.run, hok, Runtime.runLoop]

/-- Witness for C8: a three-opcode program run with budget 0. -/
theorem claim_C8_witness :
    Runtime.run pureRuntime 0 nilHandler =
      .finished 0 (.Exit .StepLimitReached) pureRuntime := by
  have hthm := claim_C8 pureRuntime nilHandler 0 rfl
  exact hthm.2

/-- Counterexample to C4: a CREATE whose child completes with a `Revert`
carrying the bytes `[0xDE, 0xAD]` leaves the parent's return-data buffer
empty after the resume — the buffer does not equal the bytes the child
frame returned. -/
theorem claim_C4_cex :
    (Outcome.rtOf (create (mkRuntime [5, 0, 0, 99] [] [9, 9]) false
        revertCreateHandler)).map Runtime.return_data_buffer = some [] ∧
    some ([] : List Nat) ≠ some [222, 173] := by
  constructor
  · decide
  · decide

/-- Claim C4 (amended): immediately after any CALL-family or CREATE
dispatch but before its resume the return-data buffer is empty; after a
CALL-family resume (`save_return_value`) the buffer equals exactly the
child's returned bytes; a CREATE/CREATE2 resume (`save_created_address`)
leaves the buffer unchanged — the child's return data is discarded, so
after a CREATE dispatch and resume the buffer is empty. -/
theorem claim_C4 :
    (∀ (rt : Runtime) (scheme : CallScheme)
      (gas to_ value in_off in_len : Nat) (rest : List Nat) (mem' : Memory),
      rt.machine.stack.data =
        gas :: to_ ::
          ((if scheme = .Call ∨ scheme = .CallCode then [value] else []) ++
            in_off :: in_len :: rest) →
      in_off ≤ usizeMax → in_len ≤ usizeMax →
      rt.machine.memory.resize_offset in_off in_len = .ok mem' →
      ∃ x, call rt scheme trapHandler =
        .norm (.CallInterrupt x)
          (((rt.withStack ⟨rest, rt.machine.stack.limit⟩).withMemory
              mem').withBuffer [])) ∧
    (∀ (rt : Runtime) (is_create2 : Bool)
      (value code_off len salt : Nat) (rest : List Nat) (mem' : Memory),
      rt.machine.stack.data =
        value :: code_off :: len ::
          ((if is_create2 then [salt] else []) ++ rest) →
      code_off ≤ usizeMax → len ≤ usizeMax →
      rt.machine.memory.resize_offset code_off len = .ok mem' →
      ∃ x, create rt is_create2 trapHandler =
        .norm (.CreateInterrupt x)
          (((rt.withStack ⟨rest, rt.machine.stack.limit⟩).withMemory
              mem').withBuffer [])) ∧
    (∀ (rt : Runtime) (reason : ExitReason) (rd : List Nat)
      (h : Handler CI CRI) (out_off out_len : Nat) (rest : List Nat)
      (mem' : Memory),
      rt.machine.stack.data = out_off :: out_len :: rest →
      out_off ≤ usizeMax → out_len ≤ usizeMax →
      rt.machine.memory.resize_offset out_off out_len = .ok mem' →
      rest.length < rt.machine.stack.limit →
      reason ≠ .StepLimitReached →
      (Outcome.rtOf (save_return_value rt reason rd h)).map
        Runtime.return_data_buffer = some rd) ∧
    (∀ (rt : Runtime) (reason : ExitReason) (addr : Option Nat)
      (h : Handler CI CRI),
      rt.machine.stack.data.length < rt.machine.stack.limit →
      reason ≠ .StepLimitReached →
      (Outcome.rtOf (save_created_address rt reason addr h)).map
        Runtime.return_data_buffer = some rt.return_data_buffer) := by
  refine ⟨?_, ?_, ?_, ?_⟩
  · intro rt scheme gas to_ value in_off in_len rest mem' hstk hin hlen hres
    have hc := call_spec rt scheme trapHandler gas to_ value in_off in_len
      rest mem' hstk hin hlen hres
    simp only [trapHandler] at hc
    exact ⟨_, hc⟩
  · intro rt is_create2 value code_off len salt rest mem' hstk hoff hlen hres
    have hc := create_spec rt is_create2 trapHandler value code_off len salt
      rest mem' hstk hoff hlen hres
    simp only [trapHandler] at hc
    exact ⟨_, hc⟩
  · intro rt reason rd h out_off out_len rest mem' hstk hoff hlen hres hcap hne
    rw [save_return_value_spec rt reason rd h out_off out_len rest mem'
      hstk hoff hlen hres hcap]
    cases reason with
    | Succeed s =>
      cases mem'.copy_large out_off 0 (min out_len rd.length) rd <;>
        simp [Outcome.rtOf]
    | Revert r => simp [Outcome.rtOf]
    | Error e => simp [Outcome.rtOf]
    | Fatal e => simp [Outcome.rtOf]
    | StepLimitReached => exact absurd rfl hne
  · intro rt reason addr h hcap hne
    rw [save_created_address_spec rt reason addr h hcap]
    cases reason with
    | Succeed s => simp [Outcome.rtOf]
    | Revert r => simp [Outcome.rtOf]
    | Error e => simp [Outcome.rtOf]
    | Fatal e => simp [Outcome.rtOf]
    | StepLimitReached => exact absurd rfl hne

/-- Witness for C4 (amended) at a concrete successful call resume: the
buffer afterwards is exactly the child's returned bytes. -/
theorem claim_C4_witness :
    (Outcome.rtOf (save_return_value (mkRuntime [0, 0, 9] [] [7])
        (.Succeed .Stopped) [1, 2] nilHandler)).map
      Runtime.return_data_buffer = some [1, 2] := by
  exact (@claim_C4 Unit Unit).2.2.1
    (mkRuntime [0, 0, 9] [] [7]) (.Succeed .Stopped) [1, 2] nilHandler
    0 0 [9] ⟨[], 1000⟩ rfl (by decide) (by decide) rfl (by decide) (by decide)

/-- Counterexample to C5: an inner call completing with the non-revert
error `OutOfGas` and non-empty returned data `[0xAA]` leaves the caller's
return-data buffer equal to `[0xAA]`, not empty — the code assigns
`return_data_buffer = return_data` before branching on the reason. -/
theorem claim_C5_cex :
    (Outcome.rtOf (save_return_value (mkRuntime [0, 0, 7] [] [])
        (.Error .OutOfGas) [170] nilHandler)).map
      Runtime.return_data_buffer = some [170] ∧
    some ([170] : List Nat) ≠ some ([] : List Nat) := by
  constructor
  · decide
  · decide

/-- Claim C5 (amended): after an inner call completing with `Revert`, the
return-data buffer equals the revert data, and `RETURNDATASIZE` then
pushes its length (observability); after a non-revert `Error` the buffer
equals the data returned alongside the error — the caller observes an
empty buffer exactly when the child returned no data. -/
theorem claim_C5 :
    (∀ (rt : Runtime) (r : ExitRevert) (rd : List Nat) (h : Handler CI CRI)
      (out_off out_len : Nat) (rest : List Nat) (mem' : Memory),
      rt.machine.stack.data = out_off :: out_len :: rest →
      out_off ≤ usizeMax → out_len ≤ usizeMax →
      rt.machine.memory.resize_offset out_off out_len = .ok mem' →
      rest.length < rt.machine.stack.limit →
      (Outcome.rtOf (save_return_value rt (.Revert r) rd h)).map
        Runtime.return_data_buffer = some rd) ∧
    (∀ (rt : Runtime),
      rt.machine.stack.data.length < rt.machine.stack.limit →
      (returndatasize rt : Outcome CI CRI) =
        .norm .Continue
          (rt.withStack ⟨rt.return_data_buffer.length :: rt.machine.stack.data,
            rt.machine.stack.limit⟩)) ∧
    (∀ (rt : Runtime) (e : ExitError) (rd : List Nat) (h : Handler CI CRI)
      (out_off out_len : Nat) (rest : List Nat) (mem' : Memory),
      rt.machine.stack.data = out_off :: out_len :: rest →
      out_off ≤ usizeMax → out_len ≤ usizeMax →
      rt.machine.memory.resize_offset out_off out_len = .ok mem' →
      rest.length < rt.machine.stack.limit →
      (Outcome.rtOf (save_return_value rt (.Error e) rd h)).map
        Runtime.return_data_buffer = some rd) := by
  refine ⟨?_, ?_, ?_⟩
  · intro rt r rd h out_off out_len rest mem' hstk hoff hlen hres hcap
    rw [save_return_value_spec rt (.Revert r) rd h out_off out_len rest mem'
      hstk hoff hlen hres hcap]
    simp [Outcome.rtOf]
  · intro rt hcap
    exact returndatasize_spec rt hcap
  · intro rt e rd h out_off out_len rest mem' hstk hoff hlen hres hcap
    rw [save_return_value_spec rt (.Error e) rd h out_off out_len rest mem'
      hstk hoff hlen hres hcap]
    simp [Outcome.rtOf]

/-- Witness for C5 (amended) at a concrete revert with data `[0xDE, 0xAD]`. -/
theorem claim_C5_witness :
    (Outcome.rtOf (save_return_value (mkRuntime [0, 0, 9] [] [7])
        (.Revert .Reverted) [222, 173] nilHandler)).map
      Runtime.return_data_buffer = some [222, 173] := by
  exact (@claim_C5 Unit Unit).1
    (mkRuntime [0, 0, 9] [] [7]) .Reverted [222, 173] nilHandler 0 0 [9]
    ⟨[], 1000⟩ rfl (by decide) (by decide) rfl (by decide)

/-- Counterexample to C9: with `out_offset = 2^64` (not representable as
`usize`) on top of the stack, `save_return_value` pops both control words
and exits fatally without pushing any result word — the parent stack is
left as `[7]` with no new top word, although the child succeeded. -/
theorem claim_C9_cex :
    save_return_value (mkRuntime [2 ^ 64, 0, 7] [] []) (.Succeed .Returned)
      [1] nilHandler =
      .norm (.Exit (.Fatal .NotSupported))
        ((mkRuntime [2 ^ 64, 0, 7] [] []).withStack ⟨[7], 1024⟩) ∧
    ((mkRuntime [2 ^ 64, 0, 7] [] []).withStack ⟨[7], 1024⟩).machine.stack.data
      = [7] := by
  constructor
  · decide
  · decide

/-- Claim C9 (amended): provided the popped `(out_offset, out_len)` fit in
`usize`, the resize succeeds and the stack is not full, `save_return_value`
leaves the parent stack topped by exactly one newly pushed word with value
0 or 1; and on a non-full stack `save_created_address` leaves it topped by
exactly one pushed word equal to the created address or zero. -/
theorem claim_C9 :
    (∀ (rt : Runtime) (reason : ExitReason) (rd : List Nat)
      (h : Handler CI CRI) (out_off out_len : Nat) (rest : List Nat)
      (mem' : Memory),
      rt.machine.stack.data = out_off :: out_len :: rest →
      out_off ≤ usizeMax → out_len ≤ usizeMax →
      rt.machine.memory.resize_offset out_off out_len = .ok mem' →
      rest.length < rt.machine.stack.limit →
      reason ≠ .StepLimitReached →
      ∃ (w : Nat) (ctl : Control CI CRI) (rt' : Runtime),
        save_return_value rt reason rd h = .norm ctl rt' ∧
        rt'.machine.stack.data = w :: rest ∧ (w = 0 ∨ w = 1)) ∧
    (∀ (rt : Runtime) (reason : ExitReason) (addr : Option Nat)
      (h : Handler CI CRI),
      rt.machine.stack.data.length < rt.machine.stack.limit →
      reason ≠ .StepLimitReached →
      ∃ (w : Nat) (ctl : Control CI CRI) (rt' : Runtime),
        save_created_address rt reason addr h = .norm ctl rt' ∧
        rt'.machine.stack.data = w :: rt.machine.stack.data ∧
        (w = addr.getD 0 ∨ w = 0)) := by
  constructor
  · intro rt reason rd h out_off out_len rest mem' hstk hoff hlen hres hcap hne
    rw [save_return_value_spec rt reason rd h out_off out_len rest mem'
      hstk hoff hlen hres hcap]
    cases reason with
    | Succeed s =>
      cases mem'.copy_large out_off 0 (min out_len rd.length) rd with
      | ok mem2 => exact ⟨1, _, _, rfl, rfl, Or.inr rfl⟩
      | error e => exact ⟨0, _, _, rfl, rfl, Or.inl rfl⟩
    | Revert r => exact ⟨0, _, _, rfl, rfl, Or.inl rfl⟩
    | Error e => exact ⟨0, _, _, rfl, rfl, Or.inl rfl⟩
    | Fatal e => exact ⟨0, _, _, rfl, rfl, Or.inl rfl⟩
    | StepLimitReached => exact absurd rfl hne
  · intro rt reason addr h hcap hne
    rw [save_created_address_spec rt reason addr h hcap]
    cases reason with
    | Succeed s => exact ⟨addr.getD 0, _, _, rfl, rfl, Or.inl rfl⟩
    | Revert r => exact ⟨0, _, _, rfl, rfl, Or.inr rfl⟩
    | Error e => exact ⟨0, _, _, rfl, rfl, Or.inr rfl⟩
    | Fatal e => exact ⟨0, _, _, rfl, rfl, Or.inr rfl⟩
    | StepLimitReached => exact absurd rfl hne

/-- Witness for C9 (amended) at a concrete succeeding call resume. -/
theorem claim_C9_witness :
    ∃ (w : Nat) (ctl : Control Unit Unit) (rt' : Runtime),
      save_return_value (mkRuntime [0, 0, 9] [] []) (.Succeed .Stopped)
        [1, 2] nilHandler = .norm ctl rt' ∧
      rt'.machine.stack.data = w :: [9] ∧ (w = 0 ∨ w = 1) := by
  exact (@claim_C9 Unit Unit).1
    (mkRuntime [0, 0, 9] [] []) (.Succeed .Stopped) [1, 2] nilHandler 0 0 [9]
    ⟨[], 1000⟩ rfl (by decide) (by decide) rfl (by decide) (by decide)

/-- Claim C10: for every reason (other than the unreachable
`StepLimitReached`) and optional address, `save_created_address` leaves
memory, return-data buffer and context unchanged — its only frame effect
is pushing a single word (the created address or zero), plus signalling
the exit on `Fatal`; and the CREATE/CREATE2 completion path discards the
child's return data: the dispatch result does not depend on it. -/
theorem claim_C10 :
    (∀ (rt : Runtime) (reason : ExitReason) (addr : Option Nat)
      (h : Handler CI CRI),
      rt.machine.stack.data.length < rt.machine.stack.limit →
      reason ≠ .StepLimitReached →
      ∃ (w : Nat) (ctl : Control CI CRI) (rt' : Runtime),
        save_created_address rt reason addr h = .norm ctl rt' ∧
        rt'.machine.memory = rt.machine.memory ∧
        rt'.return_data_buffer = rt.return_data_buffer ∧
        rt'.context = rt.context ∧
        rt'.machine.stack.data = w :: rt.machine.stack.data ∧
        (w = addr.getD 0 ∨ w = 0) ∧
        (ctl = .Continue ∨ ∃ e, reason = .Fatal e ∧ ctl = .Exit (.Fatal e))) ∧
    (∀ (rt : Runtime) (is_create2 : Bool)
      (value code_off len salt : Nat) (rest : List Nat) (mem' : Memory)
      (reason : ExitReason) (addr : Option Nat) (rd1 rd2 : List Nat),
      rt.machine.stack.data =
        value :: code_off :: len ::
          ((if is_create2 then [salt] else []) ++ rest) →
      code_off ≤ usizeMax → len ≤ usizeMax →
      rt.machine.memory.resize_offset code_off len = .ok mem' →
      create rt is_create2 (constCreateHandler reason addr rd1) =
        create rt is_create2 (constCreateHandler reason addr rd2)) := by
  constructor
  · intro rt reason addr h hcap hne
    rw [save_created_address_spec rt reason addr h hcap]
    cases reason with
    | Succeed s =>
      exact ⟨addr.getD 0, _, _, rfl, rfl, rfl, rfl, rfl, Or.inl rfl,
        Or.inl rfl⟩
    | Revert r =>
      exact ⟨0, _, _, rfl, rfl, rfl, rfl, rfl, Or.inr rfl, Or.inl rfl⟩
    | Error e =>
      exact ⟨0, _, _, rfl, rfl, rfl, rfl, rfl, Or.inr rfl, Or.inl rfl⟩
    | Fatal e =>
      exact ⟨0, _, _, rfl, rfl, rfl, rfl, rfl, Or.inr rfl,
        Or.inr ⟨e, rfl, rfl⟩⟩
    | StepLimitReached => exact absurd rfl hne
  · intro rt is_create2 value code_off len salt rest mem' reason addr rd1 rd2
      hstk hoff hlen hres
    rw [create_spec rt is_create2 (constCreateHandler reason addr rd1) value
      code_off len salt rest mem' hstk hoff hlen hres]
    rw [create_spec rt is_create2 (constCreateHandler reason addr rd2) value
      code_off len salt rest mem' hstk hoff hlen hres]
    simp only [constCreateHandler, nilHandler]
    rfl

/-- Witness for C10 at a concrete reverting creation: the zero word is
pushed and memory, buffer and context are untouched. -/
theorem claim_C10_witness :
    ∃ (w : Nat) (ctl : Control Unit Unit) (rt' : Runtime),
      save_created_address (mkRuntime [9] [4, 2] [5]) (.Revert .Reverted)
        (some 0xabc) nilHandler = .norm ctl rt' ∧
      rt'.machine.memory = (mkRuntime [9] [4, 2] [5]).machine.memory ∧
      rt'.return_data_buffer = [5] ∧
      rt'.context = sampleContext ∧
      rt'.machine.stack.data = w :: [9] ∧
      (w = (some 0xabc).getD 0 ∨ w = 0) ∧
      (ctl = .Continue ∨
        ∃ e, ExitReason.Revert .Reverted = .Fatal e ∧ ctl = .Exit (.Fatal e)) := by
  exact (@claim_C10 Unit Unit).1
    (mkRuntime [9] [4, 2] [5]) (.Revert .Reverted) (some 0xabc) nilHandler
    (by decide) (by decide)
